import Mathlib

/-!
Shallow embedding of the Resume-Bot analysis pipeline
(`src/services/resume_analyzer.py`, `src/services/pdf_parser.py`,
`src/app.py`, `src/components/ui_components.py`) and proofs about the
spec claims.

External collaborators (the LLM HTTP client, Python's `json.loads`, the
NLTK tokenizer, the sentence-embedding model, the PyMuPDF page reader and
the wall clock) are modelled as explicit inputs:
  * the model call together with the subsequent `json.loads` is an
    `Except String (Option JValue)` — `.error msg` is an exception raised
    by the model call, `.ok none` is a reply that is not valid JSON
    (`json.JSONDecodeError`), `.ok (some v)` is a successfully parsed
    JSON value `v`;
  * the tokenizer is a `String → List String` argument (the in-repo
    fallback `str.split` is `splitWs` below);
  * the embedding similarity is a rational argument;
  * a PDF document is the `Except String (List String)` outcome of
    `fitz.open`: the error message of a raised exception, or the list of
    per-page `get_text` strings;
  * the timestamp is a string argument.
Everything the repository itself computes is embedded from the source.
-/

set_option autoImplicit false

/-- JSON values as produced by `json.loads` (numbers restricted to the
integers, which is all the claims need). -/
inductive JValue : Type where
  | jnull : JValue
  | jbool : Bool → JValue
  | jnum : Int → JValue
  | jstr : String → JValue
  | jarr : List JValue → JValue
  | jobj : List (String × JValue) → JValue
deriving Repr

/-- Field lookup in a JSON object; `none` on non-objects or absent keys. -/
def jlookup (v : JValue) (key : String) : Option JValue :=
  match v with
  | .jobj fields => fields.lookup key
  | _ => none

/-- `ResumeAnalyzer._parse_fallback_response`: the fixed record substituted
when the match-analysis reply is not valid JSON. -/
def parseFallbackResponse : JValue :=
  .jobj [
    ("overall_match_score", .jnum 50),
    ("strengths", .jarr [.jstr "Analysis completed"]),
    ("weaknesses", .jarr [.jstr "Response parsing issue"]),
    ("missing_keywords", .jarr []),
    ("recommendations", .jarr [.jstr "Consider manual review"]),
    ("skill_matches", .jobj [
      ("technical_skills", .jarr []),
      ("soft_skills", .jarr []),
      ("missing_skills", .jarr [])]),
    ("experience_analysis", .jobj [
      ("relevant_experience", .jstr "Analysis incomplete"),
      ("experience_gaps", .jstr "Unknown"),
      ("years_match", .jstr "Cannot determine")])]

/-- `ResumeAnalyzer._parse_fallback_suggestions`: the fixed record
substituted when the improvement-suggestions reply is not valid JSON. -/
def parseFallbackSuggestions : JValue :=
  .jobj [
    ("immediate_improvements", .jarr [
      .jobj [
        ("section", .jstr "General"),
        ("current_issue", .jstr "Response parsing issue"),
        ("suggested_change", .jstr "Manual review recommended")]]),
    ("keyword_optimization", .jarr []),
    ("formatting_suggestions", .jarr [.jstr "Review document formatting"]),
    ("content_enhancements", .jarr [.jstr "Consider professional review"])]

/-- The `try json.loads / except JSONDecodeError` step of
`ResumeAnalyzer.analyze_resume` (lines 208-212): a parsed value is used
as-is, a parse failure is replaced by the fallback record. -/
def parseMatchResponse (parsed : Option JValue) : JValue :=
  match parsed with
  | some v => v
  | none => parseFallbackResponse

/-- The corresponding step of `ResumeAnalyzer.get_improvement_suggestions`
(lines 262-265). -/
def parseImprovementResponse (parsed : Option JValue) : JValue :=
  match parsed with
  | some v => v
  | none => parseFallbackSuggestions

/-- The all-empty suggestions record returned by the outer exception
handler of `get_improvement_suggestions` (lines 269-276). -/
def emptySuggestions : JValue :=
  .jobj [
    ("immediate_improvements", .jarr []),
    ("keyword_optimization", .jarr []),
    ("formatting_suggestions", .jarr []),
    ("content_enhancements", .jarr [])]

/-- `ResumeAnalyzer.get_improvement_suggestions`: builds the prompt, calls
the model, parses the reply (fallback record on a JSON parse failure) and
returns the all-empty record if any exception escaped. -/
def getImprovementSuggestions (llmOutcome : Except String (Option JValue)) :
    JValue :=
  match llmOutcome with
  | .error _ => emptySuggestions
  | .ok parsed => parseImprovementResponse parsed

/-- Python `str.strip()` on a character list: drop leading and trailing
whitespace (ASCII whitespace; Python also strips a few rarer Unicode
spaces, which no claim depends on).  Structural recursion is used instead
of `String.trim` so that concrete inputs evaluate inside the kernel. -/
def stripChars (cs : List Char) : List Char :=
  ((cs.dropWhile Char.isWhitespace).reverse.dropWhile Char.isWhitespace).reverse

/-- Python `str.strip()`. -/
def pyStrip (s : String) : String :=
  String.mk (stripChars s.data)

/-- Python `str.lower()` (ASCII reading). -/
def pyLower (s : String) : String :=
  String.mk (s.data.map Char.toLower)

/-- The cleaning step of `ResumeAnalyzer.extract_keywords` (line 144):
lower-case the text, then replace every character that is not a word
character or whitespace with a space (`re.sub` with pattern class
word-or-space, ASCII reading of the word class). -/
def cleanText (text : String) : String :=
  String.mk (((pyLower text).data).map
    (fun c => if c.isAlphanum || c == '_' || c.isWhitespace then c else ' '))

/-- Splitting helper for Python `str.split()`: cut the character list at
every whitespace character (`acc` holds the current piece reversed). -/
def splitWsAux : List Char → List Char → List (List Char)
  | [], acc => [acc.reverse]
  | c :: cs, acc =>
    if c.isWhitespace then acc.reverse :: splitWsAux cs []
    else splitWsAux cs (c :: acc)

/-- Python `str.split()` with no separator: split on whitespace runs and
drop empty pieces.  This is the in-repo fallback tokenizer of
`extract_keywords` (line 152); the primary NLTK `word_tokenize` is an
external collaborator, so the tokenizer is a parameter below. -/
def splitWs (s : String) : List String :=
  ((splitWsAux s.data []).filter (fun t => t ≠ [])).map String.mk

/-- Keys of a Python `Counter` built from `l`: the distinct elements in
first-occurrence order. -/
def uniqueKeys : List String → List String
  | [] => []
  | w :: ws => w :: (uniqueKeys ws).filter (fun x => x ≠ w)

/-- A Python `Counter(l)` as an association list: distinct keys in
first-occurrence order, each with its total multiplicity. -/
def countOcc (l : List String) : List (String × Nat) :=
  (uniqueKeys l).map (fun w => (w, l.count w))

/-- Stable insertion used to model Python's stable `sorted`. -/
def insertBy {α : Type} (le : α → α → Bool) (x : α) : List α → List α
  | [] => [x]
  | y :: ys => if le x y then x :: y :: ys else y :: insertBy le x ys

/-- Stable insertion sort (`foldr` keeps the original relative order of
elements the comparison ties). -/
def sortBy {α : Type} (le : α → α → Bool) (l : List α) : List α :=
  l.foldr (insertBy le) []

/-- `Counter.most_common(top_n)`: entries sorted by descending count,
ties in first-occurrence order, truncated to `top_n`. -/
def mostCommon (freq : List (String × Nat)) (top_n : Nat) :
    List (String × Nat) :=
  (sortBy (fun p q => q.2 ≤ p.2) freq).take top_n

/-- `ResumeAnalyzer.extract_keywords` (lines 140-166): clean, tokenize
(`tokenize` stands for NLTK `word_tokenize` or the `splitWs` fallback),
drop stopwords and words of length at most 2, and return the `top_n` most
frequent remaining tokens (`top_n` defaults to 20 in the source; callers
inside `analyze_resume` use that default, written explicitly below). -/
def extract_keywords (stopWords : List String)
    (tokenize : String → List String) (text : String)
    (top_n : Nat) : List String :=
  let cleaned := cleanText text
  let tokens := tokenize cleaned
  let keywords :=
    tokens.filter (fun w => !(stopWords.contains w) && decide (2 < w.length))
  (mostCommon (countOcc keywords) top_n).map Prod.fst

/-- Python `round(x, 2)` on the rationals our claims touch: round to the
nearest hundredth (Python rounds float ties to even; no value a claim
depends on falls on a tie, so the choice of tie-breaking is immaterial). -/
def round2 (q : ℚ) : ℚ :=
  ((round (q * 100) : ℤ) : ℚ) / 100

/-- The `keyword_analysis` sub-record of `analyze_resume`
(lines 228-234). -/
structure KeywordAnalysis : Type where
  resume_keywords : List String
  job_keywords : List String
  common_keywords : List String
  keyword_match_rate : ℚ
  missing_keywords : List String
deriving Repr

/-- Lines 215-234 of `analyze_resume`: keyword extraction on both texts
(default `top_n = 20`), set intersection and difference, and the match
rate `|common| / |job_keywords|` (0 when `job_keywords` is empty),
reported as a percentage rounded to 2 decimals.  The Python sets are
emitted in unspecified (hash) order; they are modelled as sublists of
`job_keywords`, which preserves the cardinalities because the keyword
lists have no duplicate entries (`extract_keywords_nodup` below). -/
def mkKeywordAnalysis (stopWords : List String)
    (tokenize : String → List String)
    (resume_text job_description : String) : KeywordAnalysis :=
  let resume_keywords := extract_keywords stopWords tokenize resume_text 20
  let job_keywords := extract_keywords stopWords tokenize job_description 20
  let common_keywords := job_keywords.filter (fun w => resume_keywords.contains w)
  let keyword_match_rate : ℚ :=
    if job_keywords = [] then 0
    else (common_keywords.length : ℚ) / (job_keywords.length : ℚ)
  { resume_keywords := resume_keywords
    job_keywords := job_keywords
    common_keywords := common_keywords
    keyword_match_rate := round2 (keyword_match_rate * 100)
    missing_keywords := job_keywords.filter (fun w => !(resume_keywords.contains w)) }

/-- The record returned by `ResumeAnalyzer.analyze_resume`.  On the error
path the Python code puts an empty dict in `keyword_analysis`; that is
`none` here. -/
structure AnalysisResult : Type where
  error : Option String
  ai_analysis : JValue
  keyword_analysis : Option KeywordAnalysis
  semantic_similarity : ℚ
  analysis_timestamp : String
deriving Repr

/-- `ResumeAnalyzer.analyze_resume` (lines 187-249).  `llmOutcome` is the
combined outcome of the model call and `json.loads` (see the header);
`semanticScoreRaw` is the value `calculate_semantic_similarity` returns
(0.0 when the embedding model is unavailable or fails); `now` is the
timestamp.  An exception in the model call is caught by the outer handler
and produces the error-tagged record. -/
def analyzeResume (stopWords : List String)
    (tokenize : String → List String)
    (llmOutcome : Except String (Option JValue))
    (resume_text job_description : String)
    (semanticScoreRaw : ℚ) (now : String) : AnalysisResult :=
  match llmOutcome with
  | .error e =>
      { error := some e
        ai_analysis := .jobj []
        keyword_analysis := none
        semantic_similarity := 0
        analysis_timestamp := now }
  | .ok parsed =>
      { error := none
        ai_analysis := parseMatchResponse parsed
        keyword_analysis :=
          some (mkKeywordAnalysis stopWords tokenize resume_text job_description)
        semantic_similarity := round2 (semanticScoreRaw * 100)
        analysis_timestamp := now }

/-- The clamping line of `display_score_gauge`
(`src/components/ui_components.py` line 16):
`score = max(0, min(100, float(score)))`. -/
def clampScore (score : ℚ) : ℚ :=
  max 0 (min 100 score)

/-- The record built by `PDFParser.extract_text`
(`src/services/pdf_parser.py` lines 61-98). -/
structure ExtractionResult : Type where
  text : String
  method_used : String
  success : Bool
  error : Option String
  page_count : Nat
deriving Repr

/-- A PDF as seen through `fitz.open`: either the message of the raised
exception (unreadable bytes) or the list of per-page `get_text("text")`
strings. -/
abbrev PdfDoc : Type := Except String (List String)

/-- `PDFParser.extract_text_pymupdf` (lines 20-48): concatenate the pages
whose stripped text is non-empty, each followed by a blank line, strip the
result; any exception yields the empty string. -/
def extract_text_pymupdf (doc : PdfDoc) : String :=
  match doc with
  | .error _ => ""
  | .ok pages =>
      pyStrip (pages.foldl
        (fun acc p => if pyStrip p ≠ "" then acc ++ p ++ "\n\n" else acc)
        "")

/-- `PDFParser.extract_text` (lines 50-98): read the page count, extract
the text, and report success exactly when the text is non-empty and its
stripped length exceeds 10; an exception while opening the document is
caught and stored in `error`. -/
def extract_text (doc : PdfDoc) : ExtractionResult :=
  match doc with
  | .error e =>
      { text := ""
        method_used := "pymupdf"
        success := false
        error := some e
        page_count := 0 }
  | .ok pages =>
      let text := extract_text_pymupdf (.ok pages)
      if text ≠ "" ∧ 10 < (pyStrip text).length then
        { text := text
          method_used := "pymupdf"
          success := true
          error := none
          page_count := pages.length }
      else
        { text := ""
          method_used := "pymupdf"
          success := false
          error := some "No text extracted or text too short"
          page_count := pages.length }

/-- The uploaded file as `validate_inputs` sees it (`src/app.py`):
a name and a size in bytes. -/
structure UploadedFile : Type where
  name : String
  size : Nat
deriving Repr

/-- `Config.MAX_FILE_SIZE_MB` (`src/utils/config.py` line 28). -/
def MAX_FILE_SIZE_MB : Nat := 10

/-- `validate_inputs` (`src/app.py` lines 82-104): collect the error
messages for a missing upload, a non-PDF name, an oversized file, and a
missing or under-50-character job description; valid iff no errors.
The Python size check compares the float `size / 2^20` against the limit,
which for integer byte counts is the integer comparison used here. -/
def validate_inputs (uploaded_file : Option UploadedFile)
    (job_description : String) : Bool × List String :=
  let errors₁ : List String :=
    match uploaded_file with
    | none => ["Please upload a resume PDF file."]
    | some f =>
        (if !((pyLower f.name).endsWith ".pdf") then
          ["Please upload a PDF file only."] else []) ++
        (if MAX_FILE_SIZE_MB * 1048576 < f.size then
          ["File size exceeds maximum allowed size."] else [])
  let errors := errors₁ ++
    (if job_description = "" ∨ (pyStrip job_description).length < 50 then
      ["Please provide a detailed job description (at least 50 characters)."]
    else [])
  (errors.length = 0, errors)

/-- The part of `main` (`src/app.py` lines 418-430) that decides whether
an analysis run (and with it the model call inside
`process_resume_analysis`) happens: on a failed validation the errors are
displayed and `main` returns before any processing. -/
inductive MainOutcome : Type where
  | validationFailure : List String → MainOutcome
  | proceeded : MainOutcome
deriving Repr

/-- The validation gate of `main`: `proceeded` is the only branch that
reaches `process_resume_analysis` and hence the model collaborator. -/
def mainFlow (uploaded_file : Option UploadedFile)
    (job_description : String) : MainOutcome :=
  let v := validate_inputs uploaded_file job_description
  if v.1 then .proceeded else .validationFailure v.2

/-- The NLTK English stopword list loaded at `ResumeAnalyzer.__init__`
(line 55), an external read-only resource.  The entries containing an
apostrophe (youre, dont, isnt, ... in their NLTK spelling) are omitted:
`cleanText` replaces apostrophes by spaces, so no token ever equals one of
them and membership of tokens is unaffected.  All parametric theorems
below hold for every stopword list; this concrete one backs the concrete
counterexamples and witnesses. -/
def englishStopwords : List String :=
  ["i", "me", "my", "myself", "we", "our", "ours", "ourselves",
   "you", "your", "yours", "yourself", "yourselves",
   "he", "him", "his", "himself", "she", "her", "hers", "herself",
   "it", "its", "itself", "they", "them", "their", "theirs", "themselves",
   "what", "which", "who", "whom", "this", "that", "these", "those",
   "am", "is", "are", "was", "were", "be", "been", "being",
   "have", "has", "had", "having", "do", "does", "did", "doing",
   "a", "an", "the", "and", "but", "if", "or", "because", "as",
   "until", "while", "of", "at", "by", "for", "with", "about",
   "against", "between", "into", "through", "during", "before",
   "after", "above", "below", "to", "from", "up", "down", "in",
   "out", "on", "off", "over", "under", "again", "further", "then",
   "once", "here", "there", "when", "where", "why", "how", "all",
   "any", "both", "each", "few", "more", "most", "other", "some",
   "such", "no", "nor", "not", "only", "own", "same", "so", "than",
   "too", "very", "s", "t", "can", "will", "just", "don", "should",
   "now", "d", "ll", "m", "o", "re", "ve", "y", "ain", "aren",
   "couldn", "didn", "doesn", "hadn", "hasn", "haven", "isn", "ma",
   "mightn", "mustn", "needn", "shan", "shouldn", "wasn", "weren",
   "won", "wouldn"]

/-- C4: on a reply that is not valid JSON (`json.loads` fails), the match
parsing step returns exactly the fixed fallback record — score 50,
single-element strengths, weaknesses and recommendations, empty
missing-keywords and skill lists — and the fallback is substituted only
on a parse failure: a successfully parsed value, schema-conforming or
not, is returned unchanged. -/
theorem parse_match_fallback_on_invalid_json :
    parseMatchResponse none = parseFallbackResponse
    ∧ jlookup parseFallbackResponse "overall_match_score" = some (.jnum 50)
    ∧ jlookup parseFallbackResponse "strengths"
        = some (.jarr [.jstr "Analysis completed"])
    ∧ jlookup parseFallbackResponse "weaknesses"
        = some (.jarr [.jstr "Response parsing issue"])
    ∧ jlookup parseFallbackResponse "recommendations"
        = some (.jarr [.jstr "Consider manual review"])
    ∧ jlookup parseFallbackResponse "missing_keywords" = some (.jarr [])
    ∧ jlookup parseFallbackResponse "skill_matches"
        = some (.jobj [
            ("technical_skills", .jarr []),
            ("soft_skills", .jarr []),
            ("missing_skills", .jarr [])])
    ∧ (∀ v : JValue, parseMatchResponse (some v) = v) := by
  refine ⟨rfl, rfl, rfl, rfl, rfl, rfl, rfl, fun v => rfl⟩

/-- C3 counterexample: the reply `"{}"` parses as JSON successfully, yet
the parsing step performs no object validation and no defaulting — the
resulting `ai_analysis` is the bare empty object, with the `strengths`
list field (and every other field) absent. -/
theorem parse_match_no_defaulting_cx :
    (analyzeResume englishStopwords splitWs (.ok (some (.jobj [])))
        "r" "j" 0 "t").ai_analysis = .jobj []
    ∧ jlookup ((analyzeResume englishStopwords splitWs (.ok (some (.jobj [])))
        "r" "j" 0 "t").ai_analysis) "strengths" = none := by
  exact ⟨rfl, rfl⟩

/-- C3 amended: on the primary (successful JSON parse) path the parsed
value is passed through verbatim — no validation that it is an object and
no defaulting of absent fields happen; defaults appear only in the
fallback record substituted on a parse failure. -/
theorem parse_match_primary_passthrough :
    (∀ v : JValue, parseMatchResponse (some v) = v)
    ∧ parseMatchResponse none = parseFallbackResponse := by
  exact ⟨fun v => rfl, rfl⟩

/-- C6: whenever the model call raises, `analyze_resume` catches the
exception and returns the error-tagged record: the message in `error`, an
empty `ai_analysis` object, an empty `keyword_analysis`, and
`semantic_similarity = 0`. -/
theorem analyze_resume_model_error (stopWords : List String)
    (tokenize : String → List String) (msg resume_text job_description : String)
    (sim : ℚ) (now : String) :
    analyzeResume stopWords tokenize (.error msg)
        resume_text job_description sim now
      = { error := some msg
          ai_analysis := .jobj []
          keyword_analysis := none
          semantic_similarity := 0
          analysis_timestamp := now } := by
  rfl

/-- C9 counterexample: a model reply that is not valid JSON is a parsing
exception (`json.JSONDecodeError`), yet `get_improvement_suggestions`
returns the fixed fallback suggestions record — whose
`immediate_improvements` list is non-empty — not the all-empty record. -/
theorem improvement_suggestions_parse_failure_cx :
    getImprovementSuggestions (.ok none) = parseFallbackSuggestions
    ∧ getImprovementSuggestions (.ok none) ≠ emptySuggestions
    ∧ jlookup (getImprovementSuggestions (.ok none)) "immediate_improvements"
        = some (.jarr [.jobj [
            ("section", .jstr "General"),
            ("current_issue", .jstr "Response parsing issue"),
            ("suggested_change", .jstr "Manual review recommended")]]) := by
  refine ⟨rfl, ?_, rfl⟩
  intro h
  simp [getImprovementSuggestions, parseImprovementResponse,
    parseFallbackSuggestions, emptySuggestions] at h

/-- C9 amended: `get_improvement_suggestions` never propagates an
exception: an exception during prompt building or the model call yields
the all-empty but well-typed suggestions record, while a JSON parse
failure of the reply yields the fixed fallback suggestions record, and a
parsed reply is returned as-is. -/
theorem improvement_suggestions_never_propagate :
    (∀ msg : String, getImprovementSuggestions (.error msg) = emptySuggestions)
    ∧ getImprovementSuggestions (.ok none) = parseFallbackSuggestions
    ∧ (∀ v : JValue, getImprovementSuggestions (.ok (some v)) = v) := by
  exact ⟨fun msg => rfl, rfl, fun v => rfl⟩

/-- C1 counterexample: when the model reply parses to an object with
`overall_match_score = 150`, the final, successfully returned analysis
record still carries 150 — the orchestrator performs no clamping before
the result is final output. -/
theorem score_not_clamped_at_orchestrator_cx :
    (analyzeResume englishStopwords splitWs
        (.ok (some (.jobj [("overall_match_score", .jnum 150)])))
        "r" "j" 0 "t").error = none
    ∧ jlookup ((analyzeResume englishStopwords splitWs
        (.ok (some (.jobj [("overall_match_score", .jnum 150)])))
        "r" "j" 0 "t").ai_analysis) "overall_match_score"
        = some (.jnum 150)
    ∧ ¬ ((150 : Int) ≤ 100) := by
  exact ⟨rfl, rfl, by decide⟩

/-- C1 amended: the orchestrator passes the parsed model value through to
the final record unchanged; clamping to [0,100] happens only at the
display layer, whose `display_score_gauge` maps every score into [0,100]
(and maps the out-of-range 150 to 100). -/
theorem score_clamped_only_at_display :
    (∀ (stopWords : List String) (tokenize : String → List String)
        (v : JValue) (resume_text job_description : String) (sim : ℚ)
        (now : String),
      (analyzeResume stopWords tokenize (.ok (some v))
          resume_text job_description sim now).ai_analysis = v)
    ∧ (∀ s : ℚ, 0 ≤ clampScore s ∧ clampScore s ≤ 100)
    ∧ clampScore 150 = 100 := by
  refine ⟨fun _ _ _ _ _ _ _ => rfl, fun s => ⟨le_max_left 0 _, ?_⟩, ?_⟩
  · exact max_le (by norm_num) (min_le_left 100 s)
  · simp only [clampScore]
    norm_num

/-- C10: `extract_text` always returns a record whose `success` flag is
true exactly when `error` is `none`; a successful record carries non-empty
text and a failed record carries an error message. -/
theorem extract_text_success_iff_no_error (doc : PdfDoc) :
    ((extract_text doc).success = true ↔ (extract_text doc).error = none)
    ∧ ((extract_text doc).success = true → (extract_text doc).text ≠ "")
    ∧ ((extract_text doc).success = false → (extract_text doc).error ≠ none) := by
  cases doc with
  | error e => simp [extract_text]
  | ok pages =>
    simp only [extract_text]
    split
    · next h => simpa using h.1
    · next h => simp

/-- Witness for C10 at concrete inputs: a one-page document with enough
text succeeds with non-empty text, and unreadable bytes fail with an
error message. -/
theorem extract_text_success_iff_no_error_witness :
    (extract_text (.ok ["a page with more than ten characters"])).text ≠ ""
    ∧ (extract_text (.error "cannot open broken file")).error ≠ none := by
  exact ⟨(extract_text_success_iff_no_error _).2.1 (by decide),
    (extract_text_success_iff_no_error _).2.2 (by decide)⟩

/-- C5 counterexample: a one-page document whose extracted text is exactly
10 characters long — neither empty nor shorter than 10 characters — is
nevertheless reported as a failure, because the source requires strictly
more than 10 characters (`len(text.strip()) > 10`). -/
theorem extract_text_len10_cx :
    extract_text_pymupdf (.ok ["abcdefghij"]) = "abcdefghij"
    ∧ "abcdefghij".length = 10
    ∧ ("abcdefghij" : String) ≠ ""
    ∧ ¬ ("abcdefghij".length < 10)
    ∧ (extract_text (.ok ["abcdefghij"])).success = false
    ∧ (extract_text (.ok ["abcdefghij"])).error
        = some "No text extracted or text too short" := by
  exact ⟨by decide, by decide, by decide, by decide, by decide, by decide⟩

/-- C5 amended: extraction reports failure exactly when the stripped
extracted output has at most 10 characters (in particular when it is
empty); success is reported exactly when the stripped output has 11 or
more characters.  Unreadable documents always fail. -/
theorem extract_text_success_iff_long (pages : List String) :
    ((extract_text (.ok pages)).success = true
      ↔ 10 < (pyStrip (extract_text_pymupdf (.ok pages))).length)
    ∧ (∀ e : String, (extract_text (.error e)).success = false) := by
  constructor
  · simp only [extract_text]
    split
    · next h => simpa using h.2
    · next h =>
      simp only [not_and_or] at h
      rcases h with h | h
      · simp only [not_not] at h
        simp [h, pyStrip, stripChars]
      · simpa using h
  · intro e
    rfl

/-- C8: with an empty job description, validation fails with the
too-short-job-description message no matter what file was uploaded, and
`main` returns on the validation branch — the analysis (and with it the
model call) is never reached. -/
theorem empty_job_short_circuits (uploaded_file : Option UploadedFile) :
    (validate_inputs uploaded_file "").1 = false
    ∧ "Please provide a detailed job description (at least 50 characters)."
        ∈ (validate_inputs uploaded_file "").2
    ∧ mainFlow uploaded_file ""
        = .validationFailure (validate_inputs uploaded_file "").2 := by
  have hjob : ("" : String) = "" ∨ (pyStrip "").length < 50 := Or.inl rfl
  have h1 : (validate_inputs uploaded_file "").1 = false := by
    simp only [validate_inputs, if_pos hjob]
    simp
  refine ⟨h1, ?_, ?_⟩
  · simp only [validate_inputs, if_pos hjob]
    simp
  · simp only [mainFlow, h1]
    simp

/-- `insertBy` only rearranges: inserting `x` permutes `x :: l`. -/
theorem insertBy_perm {α : Type} (le : α → α → Bool) (x : α) (l : List α) :
    (insertBy le x l).Perm (x :: l) := by
  induction l with
  | nil => exact List.Perm.refl _
  | cons y ys ih =>
    simp only [insertBy]
    split
    · exact List.Perm.refl _
    · exact (List.Perm.cons y ih).trans (List.Perm.swap x y ys)

/-- `sortBy` permutes its input. -/
theorem sortBy_perm {α : Type} (le : α → α → Bool) (l : List α) :
    (sortBy le l).Perm l := by
  induction l with
  | nil => exact List.Perm.refl _
  | cons y ys ih =>
    exact (insertBy_perm le y (sortBy le ys)).trans (List.Perm.cons y ih)

/-- Every element of `uniqueKeys l` occurs in `l`. -/
theorem mem_of_mem_uniqueKeys {x : String} {l : List String} :
    x ∈ uniqueKeys l → x ∈ l := by
  induction l with
  | nil => intro h; exact absurd h (List.not_mem_nil x)
  | cons w ws ih =>
    intro h
    rcases List.mem_cons.mp h with h | h
    · exact h ▸ List.mem_cons_self _ _
    · exact List.mem_cons_of_mem _ (ih (List.mem_of_mem_filter h))

/-- `uniqueKeys` has no duplicates. -/
theorem uniqueKeys_nodup (l : List String) : (uniqueKeys l).Nodup := by
  induction l with
  | nil => exact List.nodup_nil
  | cons w ws ih =>
    refine List.nodup_cons.mpr ⟨?_, ih.filter _⟩
    intro hmem
    have := List.of_mem_filter hmem
    simp at this

/-- The keys of `countOcc l` are exactly `uniqueKeys l`. -/
theorem countOcc_keys (l : List String) :
    (countOcc l).map Prod.fst = uniqueKeys l := by
  simp only [countOcc, List.map_map]
  show (uniqueKeys l).map (fun w => w) = uniqueKeys l
  simp

/-- The key of every `countOcc` entry occurs in the counted list. -/
theorem mem_of_mem_countOcc {p : String × Nat} {l : List String} :
    p ∈ countOcc l → p.1 ∈ l := by
  intro h
  rcases List.mem_map.mp h with ⟨w, hw, rfl⟩
  exact mem_of_mem_uniqueKeys hw

/-- C7: for every stopword set, tokenizer, text and `top_n`, the keyword
list has length at most `top_n` and contains no stopword and no token
shorter than 3 characters. -/
theorem extract_keywords_spec (stopWords : List String)
    (tokenize : String → List String) (text : String) (top_n : Nat) :
    (extract_keywords stopWords tokenize text top_n).length ≤ top_n
    ∧ ∀ w ∈ extract_keywords stopWords tokenize text top_n,
        w ∉ stopWords ∧ 3 ≤ w.length := by
  constructor
  · simp only [extract_keywords, mostCommon, List.length_map]
    rw [List.length_take]
    exact min_le_left _ _
  · intro w hw
    simp only [extract_keywords, mostCommon] at hw
    rcases List.mem_map.mp hw with ⟨p, hp, rfl⟩
    have hp₁ : p ∈ sortBy (fun p q => q.2 ≤ p.2) (countOcc _) :=
      List.mem_of_mem_take hp
    have hp₂ : p ∈ countOcc _ := ((sortBy_perm _ _).mem_iff).mp hp₁
    have hp₃ := mem_of_mem_countOcc hp₂
    have hflt := List.mem_filter.mp hp₃
    have hcond := hflt.2
    simp only [Bool.and_eq_true, Bool.not_eq_true', decide_eq_true_eq] at hcond
    refine ⟨?_, hcond.2⟩
    intro hmem
    have hc : stopWords.contains p.1 = true := List.elem_eq_true_of_mem hmem
    rw [hcond.1] at hc
    exact Bool.false_ne_true hc

/-- Witness for C7 at a concrete input. -/
theorem extract_keywords_spec_witness :
    (extract_keywords englishStopwords splitWs
        "the machine learning machine" 20).length ≤ 20
    ∧ ("machine" ∉ englishStopwords ∧ 3 ≤ ("machine" : String).length) :=
  ⟨(extract_keywords_spec englishStopwords splitWs
      "the machine learning machine" 20).1,
   (extract_keywords_spec englishStopwords splitWs
      "the machine learning machine" 20).2 "machine" (by decide)⟩

/-- The keyword list never repeats a keyword (`Counter` keys are
distinct); this is what lets `mkKeywordAnalysis` model the Python set
operations by list filters without changing any cardinality. -/
theorem extract_keywords_nodup (stopWords : List String)
    (tokenize : String → List String) (text : String) (top_n : Nat) :
    (extract_keywords stopWords tokenize text top_n).Nodup := by
  simp only [extract_keywords, mostCommon]
  rw [List.map_take]
  refine List.Nodup.sublist (List.take_sublist _ _) ?_
  have hperm := (sortBy_perm (fun p q : String × Nat => q.2 ≤ p.2)
    (countOcc (List.filter
      (fun w => !stopWords.contains w && decide (2 < w.length))
      (tokenize (cleanText text))))).map Prod.fst
  rw [countOcc_keys] at hperm
  exact hperm.nodup_iff.mpr (uniqueKeys_nodup _)

/-- `round2` fixes 0. -/
theorem round2_zero : round2 0 = 0 := by
  simp [round2]

/-- `round2` fixes 100. -/
theorem round2_hundred : round2 100 = 100 := by
  unfold round2
  rw [show (100 : ℚ) * 100 = ((10000 : ℤ) : ℚ) by norm_num, round_intCast]
  norm_num

/-- `round2` of a nonnegative value is nonnegative. -/
theorem round2_nonneg {q : ℚ} (h : 0 ≤ q) : 0 ≤ round2 q := by
  unfold round2
  have h1 : (0 : ℚ) ≤ q * 100 := by linarith
  have h2 := sub_half_lt_round (q * 100)
  have h3 : (-1 : ℤ) < round (q * 100) := by
    have : (-1 : ℚ) < ((round (q * 100) : ℤ) : ℚ) := by linarith
    exact_mod_cast this
  have h4 : (0 : ℤ) ≤ round (q * 100) := by omega
  have h5 : (0 : ℚ) ≤ ((round (q * 100) : ℤ) : ℚ) := by exact_mod_cast h4
  exact div_nonneg h5 (by norm_num)

/-- `round2` never exceeds 100 on inputs at most 100. -/
theorem round2_le_100 {q : ℚ} (h : q ≤ 100) : round2 q ≤ 100 := by
  unfold round2
  have h2 := round_le_add_half (q * 100)
  have h3 : ((round (q * 100) : ℤ) : ℚ) < 10001 := by linarith
  have h4 : round (q * 100) < 10001 := by exact_mod_cast h3
  have h5 : round (q * 100) ≤ 10000 := by omega
  rw [div_le_iff (by norm_num : (0 : ℚ) < 100)]
  have h6 : ((round (q * 100) : ℤ) : ℚ) ≤ 10000 := by exact_mod_cast h5
  linarith

/-- `round2` of a value at least 5 is positive. -/
theorem round2_pos {q : ℚ} (h : 5 ≤ q) : 0 < round2 q := by
  unfold round2
  have h2 := sub_half_lt_round (q * 100)
  have h3 : (499 : ℚ) < ((round (q * 100) : ℤ) : ℚ) := by linarith
  have h4 : (499 : ℤ) < round (q * 100) := by exact_mod_cast h3
  have h5 : (0 : ℚ) < ((round (q * 100) : ℤ) : ℚ) := by
    exact_mod_cast (by omega : (0 : ℤ) < round (q * 100))
  exact div_pos h5 (by norm_num)

/-- The numeric core of the match rate: for a percentage built from
`k / n` with `k ≤ n ≤ 20`, the rounded value is within [0,100], vanishes
exactly on `k = 0` (when `n > 0`), and is exactly 100 when `k = n > 0`. -/
theorem rate_pct_spec (k n : Nat) (hk : k ≤ n) (hn : n ≤ 20) :
    0 ≤ round2 ((k : ℚ) / (n : ℚ) * 100)
    ∧ round2 ((k : ℚ) / (n : ℚ) * 100) ≤ 100
    ∧ (0 < k → 0 < round2 ((k : ℚ) / (n : ℚ) * 100))
    ∧ (k = n → 0 < n → round2 ((k : ℚ) / (n : ℚ) * 100) = 100)
    ∧ (k = 0 → round2 ((k : ℚ) / (n : ℚ) * 100) = 0) := by
  have hq0 : (0 : ℚ) ≤ (k : ℚ) / (n : ℚ) * 100 := by positivity
  have hq1 : (k : ℚ) / (n : ℚ) * 100 ≤ 100 := by
    rcases Nat.eq_zero_or_pos n with h0 | hpos
    · subst h0
      simp
    · have hn' : (0 : ℚ) < (n : ℚ) := by exact_mod_cast hpos
      have : (k : ℚ) / (n : ℚ) ≤ 1 := by
        rw [div_le_one hn']
        exact_mod_cast hk
      linarith
  refine ⟨round2_nonneg hq0, round2_le_100 hq1, ?_, ?_, ?_⟩
  · intro hkpos
    have hnpos : 0 < n := lt_of_lt_of_le hkpos hk
    have hn' : (0 : ℚ) < (n : ℚ) := by exact_mod_cast hnpos
    have hk1 : (1 : ℚ) ≤ (k : ℚ) := by exact_mod_cast hkpos
    have hn20 : (n : ℚ) ≤ 20 := by exact_mod_cast hn
    have h5 : (5 : ℚ) ≤ (k : ℚ) / (n : ℚ) * 100 := by
      rw [div_mul_eq_mul_div, le_div_iff hn']
      nlinarith
    exact round2_pos h5
  · intro hkn hnpos
    subst hkn
    have hk' : ((k : ℚ)) ≠ 0 := by
      have : (0 : ℚ) < (k : ℚ) := by exact_mod_cast hnpos
      exact ne_of_gt this
    rw [div_self hk', one_mul]
    exact round2_hundred
  · intro hk0
    subst hk0
    rw [show ((0 : Nat) : ℚ) / (n : ℚ) * 100 = 0 by norm_num]
    exact round2_zero

/-- C2 amended: the reported `keyword_match_rate` lies in [0,100]; it is 0
exactly when `common_keywords` is empty (which covers the empty
`job_keywords` case but also any disjoint keyword sets); and it is 100
whenever `job_keywords` is non-empty and every job keyword also occurs
among the resume keywords. -/
theorem keyword_match_rate_spec (stopWords : List String)
    (tokenize : String → List String)
    (resume_text job_description : String) :
    (0 ≤ (mkKeywordAnalysis stopWords tokenize resume_text
            job_description).keyword_match_rate
      ∧ (mkKeywordAnalysis stopWords tokenize resume_text
            job_description).keyword_match_rate ≤ 100)
    ∧ ((mkKeywordAnalysis stopWords tokenize resume_text
            job_description).keyword_match_rate = 0
        ↔ (mkKeywordAnalysis stopWords tokenize resume_text
            job_description).common_keywords = [])
    ∧ (((mkKeywordAnalysis stopWords tokenize resume_text
            job_description).job_keywords ≠ []
        ∧ ∀ w ∈ (mkKeywordAnalysis stopWords tokenize resume_text
            job_description).job_keywords,
            w ∈ (mkKeywordAnalysis stopWords tokenize resume_text
            job_description).resume_keywords) →
      (mkKeywordAnalysis stopWords tokenize resume_text
            job_description).keyword_match_rate = 100) := by
  have hn20 : (extract_keywords stopWords tokenize job_description 20).length
      ≤ 20 := (extract_keywords_spec stopWords tokenize job_description 20).1
  simp only [mkKeywordAnalysis]
  by_cases hje : extract_keywords stopWords tokenize job_description 20 = []
  · rw [hje]
    simp only [List.filter_nil, eq_self_iff_true, if_true, zero_mul,
      round2_zero]
    refine ⟨⟨le_refl 0, by norm_num⟩, by simp, ?_⟩
    rintro ⟨hne, -⟩
    exact absurd rfl hne
  · rw [if_neg hje]
    have hk := List.length_filter_le
      (fun w => (extract_keywords stopWords tokenize resume_text 20).contains w)
      (extract_keywords stopWords tokenize job_description 20)
    obtain ⟨b0, b1, bpos, b100, bz⟩ := rate_pct_spec _ _ hk hn20
    refine ⟨⟨b0, b1⟩, ⟨?_, ?_⟩, ?_⟩
    · intro h0
      by_contra hne
      have hkpos : 0 < (List.filter
          (fun w => (extract_keywords stopWords tokenize resume_text 20).contains w)
          (extract_keywords stopWords tokenize job_description 20)).length :=
        List.length_pos.mpr hne
      exact absurd h0 (ne_of_gt (bpos hkpos))
    · intro hfe
      exact bz (by rw [hfe]; rfl)
    · rintro ⟨hjne, hsup⟩
      have hfe : List.filter
          (fun w => (extract_keywords stopWords tokenize resume_text 20).contains w)
          (extract_keywords stopWords tokenize job_description 20)
          = extract_keywords stopWords tokenize job_description 20 :=
        List.filter_eq_self.mpr
          (fun a ha => List.elem_eq_true_of_mem (hsup a ha))
      refine b100 ?_ (List.length_pos.mpr hjne)
      rw [hfe]

/-- Witness for C2 (amended) at a concrete input where the resume
keywords cover the job keywords. -/
theorem keyword_match_rate_spec_witness :
    (mkKeywordAnalysis englishStopwords splitWs
        "aaa bbb" "aaa").keyword_match_rate = 100 :=
  (keyword_match_rate_spec englishStopwords splitWs "aaa bbb" "aaa").2.2
    (by decide)

/-- C2 counterexample: for resume text `"aaa"` and job text `"bbb"` the
extracted job keyword list is the non-empty `["bbb"]`, yet the match rate
is 0 — the rate is 0 not only when `job_keywords` is empty but whenever
the overlap is empty. -/
theorem keyword_match_rate_zero_nonempty_cx :
    (mkKeywordAnalysis englishStopwords splitWs "aaa" "bbb").job_keywords
        = ["bbb"]
    ∧ (mkKeywordAnalysis englishStopwords splitWs "aaa" "bbb").job_keywords
        ≠ []
    ∧ (mkKeywordAnalysis englishStopwords splitWs
        "aaa" "bbb").keyword_match_rate = 0 := by
  refine ⟨by decide, by decide, ?_⟩
  have hjk : extract_keywords englishStopwords splitWs "bbb" 20 = ["bbb"] := by
    decide
  have hrk : extract_keywords englishStopwords splitWs "aaa" 20 = ["aaa"] := by
    decide
  have hfil : (["bbb"] : List String).filter
      (fun w => (["aaa"] : List String).contains w) = [] := by decide
  simp only [mkKeywordAnalysis, hjk, hrk, hfil]
  rw [if_neg (by simp : ¬(["bbb"] : List String) = [])]
  rw [show ((List.length ([] : List String) : ℚ)
      / (List.length (["bbb"] : List String) : ℚ)) * 100 = 0 by norm_num]
  exact round2_zero
